import Mathlib

/-!
# Verification of the mAIcroft profile aggregation engine

Shallow embedding of `maicroft/users/reddit_user.py` (class `RedditUser`).
Timestamps (`created_utc`) are epoch seconds; calendar dates are epoch day
numbers (`ts / 86400`).  Python `sorted` is embedded as
`List.insertionSort` (a stable sort, as Python's).  Python's
`datetime.now()` (called at several places in one run) is a single `now`
parameter.  The external collaborators `subreddits_dict`, `default_subs`
and `Util.coalesce` (module `maicroft.subreddits` / `maicroft.util`, not
part of the aggregation source) are modelled from the spec as read-only
parameters: an arbitrary subreddit-metadata lookup, an arbitrary
subreddit-name set, and an arbitrary string-normalization step.
-/

namespace Maicroft

/-- A normalized post record: the fields of `Comment`/`Submission` that the
aggregation engine reads (`subreddit`, `created_utc`, `score`, `gilded`). -/
structure Post where
  subreddit : String
  created_utc : Nat
  score : Int
  gilded : Nat
  deriving Repr, DecidableEq

/-! ## Best/worst tracking (process_comment / process_submission)

`process_comments` initializes `best = worst = comments[0]` and each
`process_comment` runs
`if score > best.score: best = c  elif score < worst.score: worst = c`
(the submission pass is identical with `submissions[0]`). -/

/-- One step of the running best/worst update, exactly the
`if score > best.score ... elif score < worst.score ...` of the source
(state is `(best, worst)`). -/
def bwStep (st : Post × Post) (p : Post) : Post × Post :=
  if p.score > st.1.score then (p, st.2)
  else if p.score < st.2.score then (st.1, p)
  else st

/-- `process_comments` / `process_submissions`: best and worst are both
initialized to the first post, then every post is stepped through `bwStep`
in input order; `none` when the list is empty. -/
def bestWorst : List Post → Option (Post × Post)
  | [] => none
  | p :: ps => some (List.foldl bwStep (p, p) ps)

/-! ## first_post_date (derive_attributes, lines 724–734) -/

/-- `datetime.datetime(datetime.MINYEAR, 1, 1)` as epoch seconds
(year 1, below every timestamp a `datetime` can carry). -/
def minDate : Int := -62135596800

/-- Python `min(list)` as an `Option`. -/
def listMin : List Int → Option Int
  | [] => none
  | x :: xs => some (List.foldl min x xs)

/-- `first_post_date = max(first_comment_date, first_submission_date)`,
each defaulting to `minDate` when the corresponding list is empty. -/
def firstPostDate (commented submitted : List Int) : Int :=
  max ((listMin commented).getD minDate) ((listMin submitted).getD minDate)

/-! ## results(): the no-data error (lines 813–821) -/

/-- The report stub: the summary counters `results` computes from the raw
lists before any formatting (counts, gilded totals, computed karma). -/
structure Report where
  commentCount : Nat
  submissionCount : Nat
  commentsGilded : Nat
  submissionsGilded : Nat
  computedCommentKarma : Int
  computedSubmissionKarma : Int
  deriving Repr, DecidableEq

/-- `results()`: raises `NoDataError` when
`not (self.comments or self.submissions)` — the very first statement of the
method, before anything of the report is assembled; otherwise it builds the
report.  The `Except.error` case carries no report value at all. -/
def results (comments submissions : List Post) : Except Unit Report :=
  if comments = [] ∧ submissions = [] then Except.error ()
  else Except.ok
    { commentCount := comments.length
      submissionCount := submissions.length
      commentsGilded := (comments.map Post.gilded).sum
      submissionsGilded := (submissions.map Post.gilded).sum
      computedCommentKarma := (comments.map Post.score).sum
      computedSubmissionKarma := (submissions.map Post.score).sum }

/-! ## Cross-field inference: wife/husband (derive_attributes, 717–722)

The source reads
`if "wife" in values: gender.append("male")
 elif "husband" in values: gender.append("female")` — an `elif`. -/

/-- The wife/husband step applied to the accumulated derived-gender list:
`partners` is `self.relationship_partners` (value, source) pairs. -/
def genderFromPartners (partners : List (String × String))
    (gender : List String) : List String :=
  if "wife" ∈ partners.map Prod.fst then gender ++ ["male"]
  else if "husband" ∈ partners.map Prod.fst then gender ++ ["female"]
  else gender

/-! ## Lurk-period detector (derive_attributes, lines 736–787)

Each gap record is the dict
`{"from": timegm(d1), "to": timegm(d2), "days": (d2 - d1).seconds}`;
`timedelta.seconds` is the sub-day remainder, i.e. `(t2 - t1) % 86400`.
(`tto` embeds the `"to"` key; `to` is reserved in Lean.)  Python
`max(..., key=...)` / `min(..., key=...)` return the *first* maximal /
minimal element. -/

/-- One consecutive-pair gap record of the lurk computation. -/
structure LurkRec where
  frm : Int
  tto : Int
  days : Int
  deriving Repr, DecidableEq

/-- Consecutive-pair gaps of a timeline (`zip(l[:-1], l[1:])`). -/
def gaps : List Int → List LurkRec
  | d1 :: d2 :: rest => ⟨d1, d2, (d2 - d1) % 86400⟩ :: gaps (d2 :: rest)
  | _ => []

/-- Python `max(recs, key=lambda x: x["days"])`: first-wins on ties. -/
def maxByDays : List LurkRec → Option LurkRec
  | [] => none
  | x :: xs => some (List.foldl (fun acc y => if y.days > acc.days then y else acc) x xs)

/-- Python `min(recs, key=lambda x: x["days"])`: first-wins on ties. -/
def minByDays : List LurkRec → Option LurkRec
  | [] => none
  | x :: xs => some (List.foldl (fun acc y => if y.days < acc.days then y else acc) x xs)

/-- One candidate timeline: the dates sorted ascending with `now` appended;
its maximum gap, or `none` when the appended timeline has fewer than
2 points (the source's `{"days": -1}` sentinel, which the `days >= 0`
filter always removes). -/
def lurkCandidate (dates : List Int) (now : Int) : Option LurkRec :=
  maxByDays (gaps (dates.insertionSort (· ≤ ·) ++ [now]))

/-- The filtered candidate list
`[x for x in [comment, submission, post] if x["days"] >= 0]`. -/
def lurkCandidates (cds sds : List Int) (now : Int) : List LurkRec :=
  (([lurkCandidate cds now, lurkCandidate sds now,
     lurkCandidate (cds ++ sds) now].filterMap id).filter (fun x => 0 ≤ x.days))

/-- `self.lurk_period`: the candidate with the minimum `days` value
(first-wins), over the three timelines comments-only, submissions-only and
union. -/
def lurkPeriod (cds sds : List Int) (now : Int) : Option LurkRec :=
  minByDays (lurkCandidates cds sds now)

/-! ## 60-day recency heatmap (process_comment 511–522,
process_submission 593–604)

`days_ago_60 = today - timedelta(60)`; a post is recorded when
`(date(ts) - days_ago_60).days > 0`.  Comments bump
`heatmap[delta*24 + hour]`, submissions bump `heatmap[(delta-1)*24 + hour]`;
both bump `recent_karma[delta]` / `recent_posts[delta]` (lengths 1464 / 61).
The heatmap array is embedded as a function `Int → Nat` indexed by the
Python index expression; under the in-bounds conditions proved below every
Python access hits `[0, 1463]`, where the two models coincide (out of
bounds, Python raises `IndexError`). -/

/-- `timestamp.date()` as an epoch day number. -/
def postDay (ts : Nat) : Nat := ts / 86400

/-- `timestamp.hour` (UTC). -/
def postHour (ts : Nat) : Nat := ts % 86400 / 3600

/-- `(timestamp.date() - (today - timedelta(60))).days`. -/
def deltaDays (today ts : Nat) : Int := (postDay ts : Int) - ((today : Int) - 60)

/-- The recency-window test `(timestamp.date() - days_ago_60).days > 0`. -/
def inWindow (today ts : Nat) : Bool := 0 < deltaDays today ts

/-- Comment heatmap index `delta*24 + hour`. -/
def commentHeatIdx (today ts : Nat) : Int :=
  deltaDays today ts * 24 + postHour ts

/-- Submission heatmap index `(delta - 1)*24 + hour`. -/
def submissionHeatIdx (today ts : Nat) : Int :=
  (deltaDays today ts - 1) * 24 + postHour ts

/-- `heatmap[i] += 1`. -/
def bump (hm : Int → Nat) (i : Int) : Int → Nat :=
  fun j => hm j + (if j = i then 1 else 0)

/-- The heatmap part of `process_comment`. -/
def recordCommentHeat (today : Nat) (hm : Int → Nat) (ts : Nat) : Int → Nat :=
  if inWindow today ts then bump hm (commentHeatIdx today ts) else hm

/-- The heatmap part of `process_submission`. -/
def recordSubmissionHeat (today : Nat) (hm : Int → Nat) (ts : Nat) : Int → Nat :=
  if inWindow today ts then bump hm (submissionHeatIdx today ts) else hm

/-- The heatmap after the engine's single pass: all comments, then all
submissions, starting from the all-zero array. -/
def heatmapOf (today : Nat) (comments submissions : List Post) : Int → Nat :=
  (submissions.map Post.created_utc).foldl (recordSubmissionHeat today)
    ((comments.map Post.created_utc).foldl (recordCommentHeat today) (fun _ => 0))

/-- The sum over the 1464 heatmap cells (indices 0..1463). -/
def heatmapSum (hm : Int → Nat) : Nat := ∑ j in Finset.Icc (0 : Int) 1463, hm j

/-- The number of posts whose timestamp date falls strictly within the
trailing 60-day window. -/
def inWindowCount (today : Nat) (posts : List Post) : Nat :=
  (posts.filter (fun p => inWindow today p.created_utc)).length

/-! ## Per-month date buckets (__init__ 191–208, process_comment 524–533)

`self.metrics["date"]` is pre-allocated from
`sorted(set((today - timedelta(x)).ym for x in range(0, (today-start).days)))`
and `process_comment` scans it for the bucket whose `(year, month)` matches
the comment's timestamp, breaking on the first match; when no bucket
matches, the loop falls through and nothing at all happens. -/

/-- Civil (proleptic Gregorian) date from an epoch day number
(days since 1970-01-01): `(year, month, day)`.  Lean's `Int` division is
Euclidean, which for the positive divisors used here is floor division. -/
def civilFromDays (z0 : Int) : Int × Nat × Nat :=
  let z := z0 + 719468
  let era := z / 146097
  let doe := z % 146097
  let yoe := (doe - doe / 1460 + doe / 36524 - doe / 146096) / 365
  let y := yoe + era * 400
  let doy := doe - (365 * yoe + yoe / 4 - yoe / 100)
  let mp := (5 * doy + 2) / 153
  let d := doy - (153 * mp + 2) / 5 + 1
  let m := mp + (if mp < 10 then 3 else -9)
  (y + (if m ≤ 2 then 1 else 0), m.toNat, d.toNat)

/-- The `(year, month)` of an epoch day number. -/
def civilYM (d : Int) : Int × Nat :=
  ((civilFromDays d).1, (civilFromDays d).2.1)

/-- Python tuple order on `(year, month)` pairs. -/
def ymLe (a b : Int × Nat) : Prop := a.1 < b.1 ∨ (a.1 = b.1 ∧ a.2 ≤ b.2)

instance : DecidableRel ymLe := fun a b => by unfold ymLe; infer_instance

/-- The pre-allocated bucket keys:
`sorted(set((today - x days).ym for x in range(0, (today - start).days)))`
with `today`, `start` epoch day numbers. -/
def bucketMonths (today start : Int) : List (Int × Nat) :=
  (((List.range (today - start).toNat).map
      (fun (x : Nat) => civilYM (today - x))).dedup).insertionSort ymLe

/-- One per-month bucket of `self.metrics["date"]`. -/
structure DateBucket where
  date : Int × Nat
  comments : Nat
  submissions : Nat
  comment_karma : Int
  submission_karma : Int
  deriving Repr, DecidableEq

/-- The `__init__` pre-allocation: a zeroed bucket per qualifying month. -/
def initBuckets (today start : Int) : List DateBucket :=
  (bucketMonths today start).map (fun ym => ⟨ym, 0, 0, 0, 0⟩)

/-- The `process_comment` date loop: update the first bucket matching the
comment's `(year, month)` and break; when no bucket matches, the list is
returned unchanged (the Python loop simply completes without effect and no
error is raised). -/
def recordCommentDate : List DateBucket → Int × Nat → Int → List DateBucket
  | [], _, _ => []
  | b :: bs, ym, score =>
    if b.date = ym then
      { b with comments := b.comments + 1,
               comment_karma := b.comment_karma + score } :: bs
    else b :: recordCommentDate bs ym score

/-- The `process_submission` date loop (identical shape). -/
def recordSubmissionDate : List DateBucket → Int × Nat → Int → List DateBucket
  | [], _, _ => []
  | b :: bs, ym, score =>
    if b.date = ym then
      { b with submissions := b.submissions + 1,
               submission_karma := b.submission_karma + score } :: bs
    else b :: recordSubmissionDate bs ym score

/-! ## Executable string primitives

`str.split(sep)` and `str.lower()` are embedded on the character list of
the string (Lean's own `String.splitOn` / `String.toLower` are
byte-position based and do not reduce in the kernel; these are their
character-level equivalents). -/

/-- Split a character list at every occurrence of `c`
(`"a>b".split(">") = ["a", "b"]`, `"".split(">") = [""]`). -/
def splitList (c : Char) : List Char → List (List Char)
  | [] => [[]]
  | x :: xs =>
    match splitList c xs with
    | [] => [[x]]
    | h :: t => if x = c then [] :: h :: t else (x :: h) :: t

/-- `str.split(c)`. -/
def splitOnChar (c : Char) (s : String) : List String :=
  (splitList c s.data).map (fun l => ⟨l⟩)

/-- `str.lower()`. -/
def lowerStr (s : String) : String := ⟨s.data.map Char.toLower⟩

/-! ## Counters (`collections.Counter(...).most_common()`)

Keys in first-insertion order, sorted by descending count; Python's sort is
stable, so ties keep first-seen order. -/

/-- Occurrence count of `x` in `l`. -/
def countOcc (l : List String) (x : String) : Nat := (l.filter (· = x)).length

/-- The distinct elements of `l` in first-occurrence order
(`Counter` key order). -/
def firstOccs (l : List String) : List String :=
  l.foldl (fun acc x => if x ∈ acc then acc else acc ++ [x]) []

/-- `Counter(l).most_common()`: (value, count) pairs sorted by descending
count, stable on first-seen order. -/
def mostCommon (l : List String) : List (String × Nat) :=
  ((firstOccs l).map (fun x => (x, countOcc l x))).insertionSort
    (fun a b => b.2 ≤ a.2)

/-- `commented_subreddits()` (lines 789–799). -/
def commented_subreddits (comments : List Post) : List (String × Nat) :=
  mostCommon (comments.map Post.subreddit)

/-- `submitted_subreddits()` (lines 801–811). -/
def submitted_subreddits (submissions : List Post) : List (String × Nat) :=
  mostCommon (submissions.map Post.subreddit)

/-- The combined counter of `results` line 1002:
`Counter([s.subreddit for submissions] + [c.subreddit for comments])`. -/
def allSubredditCounts (comments submissions : List Post) : List (String × Nat) :=
  mostCommon (submissions.map Post.subreddit ++ comments.map Post.subreddit)

/-! ## Subreddit metadata and thresholds -/

/-- `MIN_THRESHOLD = 3`. -/
def MIN_THRESHOLD : Nat := 3

/-- `MIN_THRESHOLD_FOR_DEFAULT = 10`. -/
def MIN_THRESHOLD_FOR_DEFAULT : Nat := 10

/-- A `subreddits_dict` entry.  Python's falsy empty string stands for a
missing topic level / attribute; `attr` embeds the `"attribute"` key
(`attribute` is reserved in Lean). -/
structure SubMeta where
  topic_level1 : String
  topic_level2 : String
  topic_level3 : String
  attr : String
  value : String
  deriving Repr, DecidableEq

/-- The topic path of a dict entry as built at lines 1013–1021:
levels 2/3 default to `"Generic"` when empty. -/
def topicOf (m : SubMeta) : String :=
  m.topic_level1
    ++ ">" ++ (if m.topic_level2 ≠ "" then m.topic_level2 else "Generic")
    ++ ">" ++ (if m.topic_level3 ≠ "" then m.topic_level3 else "Generic")

/-- The synopsis-topic qualification test of lines 1006–1009:
`(name in default_subs and count >= MIN_THRESHOLD_FOR_DEFAULT)
 or count >= MIN_THRESHOLD`. -/
def synopsisTopicQualifies (defaultSubs : List String) (name : String)
    (count : Nat) : Bool :=
  decide ((name ∈ defaultSubs ∧ MIN_THRESHOLD_FOR_DEFAULT ≤ count) ∨
    MIN_THRESHOLD ≤ count)

/-- `synopsis_topics` (lines 1000–1022): for each qualifying (name, count),
when the dict knows the subreddit, append `count` copies of its topic
path. -/
def synopsisTopics (dict : String → Option SubMeta) (defaultSubs : List String)
    (counts : List (String × Nat)) : List String :=
  counts.foldl (fun acc nc =>
    if synopsisTopicQualifies defaultSubs nc.1 nc.2 then
      match dict nc.1 with
      | some m => acc ++ List.replicate nc.2 (topicOf m)
      | none => acc
    else acc) []

/-- One step of the `derive_attributes` subreddit loops (lines 697–715):
when the dict knows the subreddit, its `attribute` is nonempty (truthy) and
`count >= MIN_THRESHOLD`, append the lower-cased value to that attribute's
derived list.  The default-subreddit set is not consulted here.
`da` is `self.derived_attributes` as a map from category to value list. -/
def deriveStep (dict : String → Option SubMeta) (da : String → List String)
    (nc : String × Nat) : String → List String :=
  match dict nc.1 with
  | some m =>
      if m.attr ≠ "" ∧ MIN_THRESHOLD ≤ nc.2 then
        fun k => if k = m.attr then da k ++ [lowerStr m.value] else da k
      else da
  | none => da

/-- `derive_attributes` up to the wife/husband step: the commented loop,
then the submitted loop, then `genderFromPartners` on the gender list. -/
def derivedAttributesOf (dict : String → Option SubMeta)
    (comments submissions : List Post)
    (partners : List (String × String)) : String → List String :=
  let da1 := (commented_subreddits comments).foldl (deriveStep dict) (fun _ => [])
  let da2 := (submitted_subreddits submissions).foldl (deriveStep dict) da1
  fun k => if k = "gender" then genderFromPartners partners (da2 "gender") else da2 k

/-! ## Synopsis assembly (results, lines 1100–1137, 1308–1323, 1427–1522)

The synopsis is a Python dict; embedded as an association list in
insertion order.  `SynEntry.sources` is `none` for the topic-merge entries,
which carry no `"sources"` key. -/

/-- One `{"value", "count", "sources"?}` record. -/
structure SynEntry where
  value : String
  count : Nat
  sources : Option (List String)
  deriving Repr, DecidableEq

/-- One synopsis category: the `data` / `data_extra` / `data_derived`
sub-keys (absent sub-keys are empty lists). -/
structure SynCat where
  data : List SynEntry
  data_extra : List SynEntry
  data_derived : List SynEntry
  deriving Repr, DecidableEq

/-- The `most_common(1)` aggregation used for gender / orientation /
relationship_partner (lines 1100–1137): at most the single most common
value, with every source whose value matches. -/
def topValueEntry (obs : List (String × String)) : List SynEntry :=
  match mostCommon (obs.map Prod.fst) with
  | [] => []
  | vc :: _ => [⟨vc.1, vc.2, some ((obs.filter (fun p => p.1 = vc.1)).map Prod.snd)⟩]

/-- The direct-data synopsis assembly for the three single-valued
categories (lines 1310–1323), in source insertion order. -/
def synopsisInit (genders orientations partners : List (String × String)) :
    List (String × SynCat) :=
  (if topValueEntry genders = [] then []
   else [("gender", ⟨topValueEntry genders, [], []⟩)])
  ++ (if topValueEntry orientations = [] then []
      else [("orientation", ⟨topValueEntry orientations, [], []⟩)])
  ++ (if topValueEntry partners = [] then []
      else [("relationship_partner", ⟨topValueEntry partners, [], []⟩)])

/-- `key in synopsis`. -/
def synHasKey (syn : List (String × SynCat)) (key : String) : Bool :=
  syn.any (·.1 = key)

/-- Update the category stored under `key` (dict value update: every entry
with that key; lookup sees the first). -/
def mapAtKey (f : SynCat → SynCat) (k : String)
    (syn : List (String × SynCat)) : List (String × SynCat) :=
  syn.map (fun kv => if kv.1 = k then (kv.1, f kv.2) else kv)

/-- `synopsis[key]["data"].append(e)`. -/
def appendData (syn : List (String × SynCat)) (key : String) (e : SynEntry) :
    List (String × SynCat) :=
  mapAtKey (fun c => { c with data := c.data ++ [e] }) key syn

/-- `synopsis[key].update({"data_derived": dd})`. -/
def updateDerived (syn : List (String × SynCat)) (key : String)
    (dd : List SynEntry) : List (String × SynCat) :=
  mapAtKey (fun c => { c with data_derived := dd }) key syn

/-- The `data` list of a category (empty when the category is absent). -/
def synData (syn : List (String × SynCat)) (k : String) : List SynEntry :=
  ((syn.lookup k).getD ⟨[], [], []⟩).data

/-- `level1_topic_groups` (lines 1427–1431). -/
def level1_topic_groups : List String :=
  ["business", "entertainment", "gaming", "hobbies and interests",
   "lifestyle", "locations", "music", "science", "sports", "technology",
   "news and politics"]

/-- `level2_topic_groups` (lines 1433–1436). -/
def level2_topic_groups : List String :=
  ["television", "books", "celebrities", "religion and spirituality"]

/-- `exclude_topics` (line 1438). -/
def exclude_topics : List String :=
  ["general", "drugs", "meta", "adult and nsfw", "other"]

/-- `exclude_coalesced_topics` (lines 1440–1442). -/
def exclude_coalesced_topics : List String :=
  ["religion and spirituality", "more interests", "alternative"]

/-- `topic_min_levels` (lines 1444–1456). -/
def topic_min_levels : List (String × Nat) :=
  [("business", 2), ("entertainment", 3), ("gaming", 2),
   ("hobbies and interests", 2), ("lifestyle", 2), ("locations", 3),
   ("music", 2), ("science", 2), ("sports", 2), ("technology", 2),
   ("news and politics", 2)]

/-- The `key` computed at lines 1465–1482 from the lower-cased,
"generic"-stripped topic levels; `none` embeds Python's `key = None`.
(An empty `level_topics` would raise `IndexError` in Python at
`level_topics[0]`; it is mapped to `none` here and is unreachable for the
nonempty topic paths `topicOf` produces.) -/
def topicKeyOf (level_topics : List String) : Option String :=
  match level_topics with
  | [] => none
  | t0 :: rest =>
    if t0 ∈ exclude_topics then none
    else
      let m := if t0 ∈ level1_topic_groups then (topic_min_levels.lookup t0).getD 2
               else 2
      let t1 := rest.getD 0 ""
      if m ≤ (t0 :: rest).length ∧ t1 ∈ level2_topic_groups ∧ t1 ∉ exclude_topics then
        some t1
      else if m ≤ (t0 :: rest).length ∧ t1 ∉ exclude_topics then some t0
      else if t0 ∉ level1_topic_groups then some "other"
      else none

/-- `[x.lower() for x in topic.split(">") if x.lower() != "generic"]`. -/
def levelTopicsOf (topic : String) : List String :=
  ((splitOnChar '>' topic).map lowerStr).filter (· ≠ "generic")

/-- One iteration of the topic-merge loop (lines 1459–1501) on one
`(topic, count)` counter entry.  `if key and ...` makes both `None` and the
empty string fall through; existing keys other than `"gender"` and
`"religion and spirituality"` get an append into `data`; missing keys are
created with a single `data` entry. -/
def topicMergeStep (coalesce : List String → String)
    (syn : List (String × SynCat)) (tc : String × Nat) :
    List (String × SynCat) :=
  if tc.2 < MIN_THRESHOLD then syn
  else
    match topicKeyOf (levelTopicsOf tc.1) with
    | none => syn
    | some k =>
      if k = "" then syn
      else if lowerStr (coalesce (levelTopicsOf tc.1)) ∈ exclude_coalesced_topics then
        syn
      else if synHasKey syn k then
        if k ≠ "gender" ∧ k ≠ "religion and spirituality" then
          appendData syn k ⟨lowerStr (coalesce (levelTopicsOf tc.1)), tc.2, none⟩
        else syn
      else syn ++ [(k, ⟨[⟨lowerStr (coalesce (levelTopicsOf tc.1)), tc.2, none⟩], [], []⟩)]

/-- The whole topic-merge loop:
`for topic, count in Counter(synopsis_topics).most_common()`. -/
def topicMerge (coalesce : List String → String)
    (syn : List (String × SynCat)) (topics : List String) :
    List (String × SynCat) :=
  (mostCommon topics).foldl (topicMergeStep coalesce) syn

/-- The fixed key order of `self.derived_attributes` (lines 266–276). -/
def derivedAttributeKeys : List String :=
  ["family_members", "gadget", "gender", "locations", "orientation",
   "physical_characteristics", "political_view", "possessions",
   "religion and spirituality"]

/-- One iteration of the derived-attributes merge (lines 1503–1522):
counted values (truncated to 1 for gender / religion and spirituality)
go into `data_derived` of an existing key, or create the key. -/
def derivedMergeStep (syn : List (String × SynCat)) (k : String)
    (vals : List String) : List (String × SynCat) :=
  let dd0 := (mostCommon vals).map (fun vc => SynEntry.mk vc.1 vc.2 none)
  let dd := if k = "gender" ∨ k = "religion and spirituality" then dd0.take 1
            else dd0
  if synHasKey syn k then updateDerived syn k dd
  else syn ++ [(k, ⟨[], [], dd⟩)]

/-- The derived-attributes merge loop over the nonempty categories, in
dict insertion order. -/
def derivedMerge (syn : List (String × SynCat)) (da : String → List String) :
    List (String × SynCat) :=
  derivedAttributeKeys.foldl
    (fun s k => if da k = [] then s else derivedMergeStep s k (da k)) syn

/-- The synopsis pipeline relevant to the single-valued categories: direct
data, then the topic merge, then the derived merge. -/
def synopsisPipeline (coalesce : List String → String)
    (genders orientations partners : List (String × String))
    (topics : List String) (da : String → List String) :
    List (String × SynCat) :=
  derivedMerge (topicMerge coalesce (synopsisInit genders orientations partners) topics) da

/-! # Helper lemmas -/

/-- Invariant maintained by the run: the worst score never exceeds the best
score. -/
theorem bwStep_inv (st : Post × Post) (p : Post)
    (h : st.2.score ≤ st.1.score) :
    (bwStep st p).2.score ≤ (bwStep st p).1.score := by
  unfold bwStep
  split
  · exact le_of_lt (lt_of_le_of_lt h (by assumption))
  · split
    · exact le_of_lt (lt_of_lt_of_le (by assumption) h)
    · exact h

theorem bwRun_inv (ps : List Post) (st : Post × Post)
    (h : st.2.score ≤ st.1.score) :
    (List.foldl bwStep st ps).2.score ≤ (List.foldl bwStep st ps).1.score := by
  induction ps generalizing st with
  | nil => exact h
  | cons p ps ih => exact ih _ (bwStep_inv st p h)

/-! ## first_post_date (derive_attributes, lines 724–734) -/

theorem listMin_eq_min (x : Int) (xs : List Int) :
    listMin (x :: xs) = some (List.foldl min x xs) := rfl

/-- `List.foldl min` is the least element of a nonempty list. -/
theorem foldl_min_mem (x : Int) (xs : List Int) :
    List.foldl min x xs ∈ x :: xs := by
  induction xs generalizing x with
  | nil => simp
  | cons y ys ih =>
    have h := ih (min x y)
    rw [List.foldl_cons]
    rcases List.mem_cons.mp h with h1 | h1
    · rcases le_total x y with hxy | hxy
      · rw [h1, min_eq_left hxy]; exact List.mem_cons_self _ _
      · rw [h1, min_eq_right hxy]; simp
    · simp [h1]

theorem foldl_min_le_init (x : Int) (xs : List Int) :
    List.foldl min x xs ≤ x := by
  induction xs generalizing x with
  | nil => simp
  | cons y ys ih => exact le_trans (ih (min x y)) (min_le_left x y)

theorem foldl_min_le (x : Int) (xs : List Int) (a : Int)
    (ha : a ∈ x :: xs) : List.foldl min x xs ≤ a := by
  induction xs generalizing x with
  | nil =>
    rcases List.mem_cons.mp ha with h1 | h1
    · simp [h1]
    · simp at h1
  | cons y ys ih =>
    rw [List.foldl_cons]
    rcases List.mem_cons.mp ha with h1 | h1
    · exact le_trans (foldl_min_le_init _ _) (by rw [h1]; exact min_le_left x y)
    · rcases List.mem_cons.mp h1 with h2 | h2
      · exact le_trans (foldl_min_le_init _ _) (by rw [h2]; exact min_le_right x y)
      · exact ih (min x y) (List.mem_cons_of_mem _ h2)

/-! ## results(): the no-data error (lines 813–821) -/

/-- Every gap record of a sorted timeline has `frm ≤ tto`. -/
theorem gaps_frm_le : ∀ (l : List Int), l.Sorted (· ≤ ·) →
    ∀ g ∈ gaps l, g.frm ≤ g.tto
  | [], _, _, hg => by simp [gaps] at hg
  | [_], _, _, hg => by simp [gaps] at hg
  | d1 :: d2 :: rest, hs, g, hg => by
    rw [gaps] at hg
    rcases List.mem_cons.mp hg with h | h
    · subst h
      exact (List.sorted_cons.mp hs).1 d2 (by simp)
    · exact gaps_frm_le (d2 :: rest) (List.sorted_cons.mp hs).2 g h

/-- Every gap record has a nonnegative `days` value (it is an `emod` by
86400, matching `timedelta.seconds ∈ [0, 86400)`). -/
theorem gaps_days_nonneg : ∀ (l : List Int), ∀ g ∈ gaps l, 0 ≤ g.days
  | d1 :: d2 :: rest, g, hg => by
    rw [gaps] at hg
    rcases List.mem_cons.mp hg with h | h
    · subst h
      exact Int.emod_nonneg _ (by norm_num)
    · exact gaps_days_nonneg (d2 :: rest) g h
  | [], _, hg => by simp [gaps] at hg
  | [_], _, hg => by simp [gaps] at hg

/-- A fold that at each step keeps either the accumulator or the new
element stays inside the list. -/
theorem foldl_choice_mem (f : LurkRec → LurkRec → LurkRec)
    (hf : ∀ a y, f a y = a ∨ f a y = y) :
    ∀ (xs : List LurkRec) (x : LurkRec), List.foldl f x xs ∈ x :: xs := by
  intro xs
  induction xs with
  | nil => intro x; simp
  | cons y ys ih =>
    intro x
    rw [List.foldl_cons]
    rcases List.mem_cons.mp (ih (f x y)) with h | h
    · rcases hf x y with he | he <;> rw [h, he] <;> simp
    · simp [h]

/-- `maxByDays` of a nonempty list is `some` member of the list. -/
theorem maxByDays_ne_nil (l : List LurkRec) (h : l ≠ []) :
    ∃ g, maxByDays l = some g ∧ g ∈ l := by
  match l with
  | [] => exact absurd rfl h
  | x :: xs =>
    exact ⟨_, rfl, foldl_choice_mem _
      (fun a y => by by_cases hc : y.days > a.days <;> simp [hc]) xs x⟩

theorem minByDays_mem {l : List LurkRec} {g : LurkRec}
    (h : minByDays l = some g) : g ∈ l := by
  match l with
  | [] => simp [minByDays] at h
  | x :: xs =>
    simp only [minByDays, Option.some.injEq] at h
    subst h
    exact foldl_choice_mem _
      (fun a y => by by_cases hc : y.days < a.days <;> simp [hc]) xs x

theorem foldl_minByDays_le_init (x : LurkRec) (xs : List LurkRec) :
    (List.foldl (fun acc y => if y.days < acc.days then y else acc) x xs).days
      ≤ x.days := by
  induction xs generalizing x with
  | nil => simp
  | cons y ys ih =>
    rw [List.foldl_cons]
    refine le_trans (ih _) ?_
    by_cases hc : y.days < x.days <;> simp [hc]
    exact le_of_lt hc

/-- The `minByDays` result has the least `days` value in the list. -/
theorem minByDays_le {l : List LurkRec} {g : LurkRec}
    (h : minByDays l = some g) : ∀ q ∈ l, g.days ≤ q.days := by
  match l with
  | [] => simp [minByDays] at h
  | x :: xs =>
    simp only [minByDays, Option.some.injEq] at h
    subst h
    intro q hq
    induction xs generalizing x with
    | nil =>
      rcases List.mem_cons.mp hq with h1 | h1
      · simp [h1]
      · simp at h1
    | cons y ys ih =>
      rw [List.foldl_cons]
      rcases List.mem_cons.mp hq with h1 | h1
      · subst h1
        refine le_trans (foldl_minByDays_le_init _ _) ?_
        by_cases hc : y.days < q.days <;> simp [hc]
        exact le_of_lt hc
      · rcases List.mem_cons.mp h1 with h2 | h2
        · subst h2
          refine le_trans (foldl_minByDays_le_init _ _) ?_
          by_cases hc : q.days < x.days <;> simp [hc]
          exact not_lt.mp hc
        · exact ih _ (List.mem_cons_of_mem _ h2)

/-- A nonempty timeline of dates yields a candidate, a member of the gaps
of the sorted-and-appended timeline. -/
theorem lurkCandidate_some (dates : List Int) (now : Int) (hne : dates ≠ []) :
    ∃ g, lurkCandidate dates now = some g ∧
      g ∈ gaps (dates.insertionSort (· ≤ ·) ++ [now]) := by
  have hlen : dates.insertionSort (· ≤ ·) ≠ [] := by
    intro h
    have hp := List.perm_insertionSort (· ≤ ·) dates
    rw [h] at hp
    exact hne (List.Perm.nil_eq hp).symm
  obtain ⟨d, ds, hds⟩ := List.exists_cons_of_ne_nil hlen
  have heq : dates.insertionSort (· ≤ ·) ++ [now] = d :: (ds ++ [now]) := by
    rw [hds]; simp
  rw [lurkCandidate, heq]
  cases ds with
  | nil => exact maxByDays_ne_nil _ (by simp [gaps])
  | cons e es => exact maxByDays_ne_nil _ (by simp [gaps])

/-- Appending `now` to the sorted dates keeps the timeline sorted when
every date is `≤ now`. -/
theorem sorted_append_now (dates : List Int) (now : Int)
    (h : ∀ d ∈ dates, d ≤ now) :
    (dates.insertionSort (· ≤ ·) ++ [now]).Sorted (· ≤ ·) := by
  rw [List.Sorted, List.pairwise_append]
  refine ⟨List.sorted_insertionSort _ dates, by simp, ?_⟩
  intro a ha b hb
  rw [List.mem_singleton] at hb
  subst hb
  exact h a ((List.perm_insertionSort (· ≤ ·) dates).mem_iff.mp ha)

theorem maxByDays_mem {l : List LurkRec} {g : LurkRec}
    (h : maxByDays l = some g) : g ∈ l := by
  match l with
  | [] => simp [maxByDays] at h
  | x :: xs =>
    simp only [maxByDays, Option.some.injEq] at h
    subst h
    exact foldl_choice_mem _
      (fun a y => by by_cases hc : y.days > a.days <;> simp [hc]) xs x

theorem minByDays_ne_nil (l : List LurkRec) (h : l ≠ []) :
    ∃ g, minByDays l = some g := by
  match l with
  | [] => exact absurd rfl h
  | x :: xs => exact ⟨_, rfl⟩

/-- A produced candidate of a timeline whose dates all precede `now` has
`frm ≤ tto`. -/
theorem lurkCandidate_frm_le {dates : List Int} {now : Int} {p : LurkRec}
    (h : lurkCandidate dates now = some p) (hle : ∀ d ∈ dates, d ≤ now) :
    p.frm ≤ p.tto := by
  rw [lurkCandidate] at h
  exact gaps_frm_le _ (sorted_append_now dates now hle) p (maxByDays_mem h)

/-! # Claim theorems -/

/-- C3: report generation raises the no-data error exactly when the account
has zero comments and zero submissions; the error branch is the first
statement of `results`, so the error case produces no report value at all,
and the ok case carries the real counts. -/
theorem results_no_data_iff (comments submissions : List Post) :
    (results comments submissions = Except.error () ↔
      comments = [] ∧ submissions = []) ∧
    (∀ r, results comments submissions = Except.ok r →
      r.commentCount = comments.length ∧
      r.submissionCount = submissions.length) := by
  constructor
  · constructor
    · intro h
      by_contra hc
      rw [results, if_neg hc] at h
      exact Except.noConfusion h
    · intro h
      rw [results, if_pos h]
  · intro r h
    rw [results] at h
    split at h
    · exact Except.noConfusion h
    · rw [Except.ok.injEq] at h
      subst h
      exact ⟨rfl, rfl⟩

/-- Witness for C3 at a one-comment account. -/
theorem results_no_data_iff_witness :
    results [⟨"programming", 86400, 5, 0⟩] [] =
      Except.ok ⟨1, 0, 0, 0, 5, 0⟩ ∧
    Report.commentCount ⟨1, 0, 0, 0, 5, 0⟩ = 1 :=
  ⟨by rfl,
   ((results_no_data_iff [⟨"programming", 86400, 5, 0⟩] []).2 _ (by rfl)).1⟩

/-- C5 counterexample: with both "wife" and "husband" observations present,
only the derived gender "male" is appended — the claimed "both derived
gender observations" never appear together. -/
theorem genderFromPartners_both_counterexample :
    genderFromPartners [("wife", "s1"), ("husband", "s2")] [] = ["male"] ∧
    "female" ∉ genderFromPartners [("wife", "s1"), ("husband", "s2")] [] := by
  decide

/-- C5 (amended): the wife and husband rules are exclusive (`elif`): any
"wife" observation appends exactly "male"; "husband" appends "female" only
when no "wife" observation exists; otherwise the gender list is
unchanged. -/
theorem genderFromPartners_elif (partners : List (String × String))
    (g : List String) :
    ("wife" ∈ partners.map Prod.fst →
      genderFromPartners partners g = g ++ ["male"]) ∧
    ("wife" ∉ partners.map Prod.fst → "husband" ∈ partners.map Prod.fst →
      genderFromPartners partners g = g ++ ["female"]) ∧
    ("wife" ∉ partners.map Prod.fst → "husband" ∉ partners.map Prod.fst →
      genderFromPartners partners g = g) := by
  refine ⟨?_, ?_, ?_⟩
  · intro h
    rw [genderFromPartners, if_pos h]
  · intro h1 h2
    rw [genderFromPartners, if_neg h1, if_pos h2]
  · intro h1 h2
    rw [genderFromPartners, if_neg h1, if_neg h2]

/-- Witness for C5 (amended). -/
theorem genderFromPartners_elif_witness :
    genderFromPartners [("wife", "s1")] [] = [] ++ ["male"] ∧
    genderFromPartners [("husband", "s2")] [] = [] ++ ["female"] :=
  ⟨(genderFromPartners_elif [("wife", "s1")] []).1 (by decide),
   (genderFromPartners_elif [("husband", "s2")] []).2.1 (by decide) (by decide)⟩

/-- C6: best and worst are initialized to the first post (`bestWorst` folds
from `(p, p)` in input order) and are updated only on strict inequality: a
post strictly above the running best becomes best, strictly below the
running worst becomes worst, and a post tying either incumbent leaves the
state unchanged (ties keep the earlier-seen post). -/
theorem bestWorst_strict (p : Post) (ps : List Post) (q : Post) :
    bestWorst (p :: ps) = some (List.foldl bwStep (p, p) ps) ∧
    ((List.foldl bwStep (p, p) ps).1.score < q.score →
      bwStep (List.foldl bwStep (p, p) ps) q =
        (q, (List.foldl bwStep (p, p) ps).2)) ∧
    (q.score < (List.foldl bwStep (p, p) ps).2.score →
      bwStep (List.foldl bwStep (p, p) ps) q =
        ((List.foldl bwStep (p, p) ps).1, q)) ∧
    ((q.score = (List.foldl bwStep (p, p) ps).1.score ∨
      q.score = (List.foldl bwStep (p, p) ps).2.score) →
      bwStep (List.foldl bwStep (p, p) ps) q = List.foldl bwStep (p, p) ps) := by
  have hinv := bwRun_inv ps (p, p) (le_refl _)
  refine ⟨rfl, ?_, ?_, ?_⟩
  · intro h
    rw [bwStep, if_pos h]
  · intro h
    rw [bwStep, if_neg (not_lt.mpr (le_of_lt (lt_of_lt_of_le h hinv))), if_pos h]
  · rintro (h | h)
    · rw [bwStep, if_neg (not_lt.mpr (le_of_eq h)),
        if_neg (not_lt.mpr (hinv.trans (le_of_eq h.symm)))]
    · rw [bwStep, if_neg (not_lt.mpr ((le_of_eq h).trans hinv)),
        if_neg (not_lt.mpr (le_of_eq h.symm))]

/-- Witness for C6: a post tying the running best (score 7) does not
replace it. -/
theorem bestWorst_strict_witness :
    bwStep (List.foldl bwStep ((⟨"a", 0, 5, 0⟩ : Post), (⟨"a", 0, 5, 0⟩ : Post))
        [⟨"b", 0, 7, 0⟩, ⟨"c", 0, 2, 0⟩]) ⟨"d", 0, 7, 0⟩ =
      List.foldl bwStep ((⟨"a", 0, 5, 0⟩ : Post), (⟨"a", 0, 5, 0⟩ : Post))
        [⟨"b", 0, 7, 0⟩, ⟨"c", 0, 2, 0⟩] :=
  (bestWorst_strict ⟨"a", 0, 5, 0⟩ [⟨"b", 0, 7, 0⟩, ⟨"c", 0, 2, 0⟩]
    ⟨"d", 0, 7, 0⟩).2.2.2 (Or.inl (by decide))

/-- C10: with both kinds of posts present, `first_post_date` is the
maximum — the LATER — of the earliest comment timestamp and the earliest
submission timestamp; with only one kind present it is the earliest
timestamp of that kind (the other side degenerates to the `minDate`
sentinel). -/
theorem firstPostDate_max_of_mins (commented submitted : List Int)
    (hc : ∀ t ∈ commented, minDate ≤ t) (hs : ∀ t ∈ submitted, minDate ≤ t) :
    (∀ fc fs, listMin commented = some fc → listMin submitted = some fs →
      firstPostDate commented submitted = max fc fs) ∧
    (commented ≠ [] → submitted = [] →
      listMin commented = some (firstPostDate commented submitted)) ∧
    (commented = [] → submitted ≠ [] →
      listMin submitted = some (firstPostDate commented submitted)) := by
  refine ⟨?_, ?_, ?_⟩
  · intro fc fs h1 h2
    rw [firstPostDate, h1, h2]
    rfl
  · intro h1 h2
    obtain ⟨x, xs, rfl⟩ := List.exists_cons_of_ne_nil h1
    subst h2
    rw [firstPostDate, listMin]
    have hmem := foldl_min_mem x xs
    have : (Option.getD (none : Option Int) minDate) = minDate := rfl
    rw [listMin]
    simp only [Option.getD_some, Option.getD_none]
    rw [max_eq_left (hc _ hmem)]
  · intro h1 h2
    obtain ⟨x, xs, rfl⟩ := List.exists_cons_of_ne_nil h2
    subst h1
    rw [firstPostDate, listMin]
    rw [listMin]
    simp only [Option.getD_some, Option.getD_none]
    rw [max_eq_right (hs _ (foldl_min_mem x xs))]

/-- Witness for C10: comments at 100 and 50, one submission at 200: the
first-post date is 200, the later of the two earliest timestamps. -/
theorem firstPostDate_max_of_mins_witness :
    firstPostDate [100, 50] [200] = max 50 200 :=
  (firstPostDate_max_of_mins [100, 50] [200] (by decide) (by decide)).1
    50 200 (by rfl) (by rfl)

/-- C1 (amended): for an account with at least one post, all of whose
timestamps are at most `now`, the detector returns a period with
`frm ≤ tto` (equality is reachable, so the original `from < to` fails), the
period is one of the qualifying timelines' maximum-gap records, and its gap
value is the minimum among them (minimum-of-maxima). -/
theorem lurkPeriod_min_of_maxima (cds sds : List Int) (now : Int)
    (hne : cds ++ sds ≠ [])
    (hle : ∀ d ∈ cds ++ sds, d ≤ now) :
    ∃ p, lurkPeriod cds sds now = some p ∧
      p.frm ≤ p.tto ∧
      p ∈ lurkCandidates cds sds now ∧
      ∀ q ∈ lurkCandidates cds sds now, p.days ≤ q.days := by
  obtain ⟨g, hg, hgm⟩ := lurkCandidate_some (cds ++ sds) now hne
  have hg0 : 0 ≤ g.days := gaps_days_nonneg _ g hgm
  have hgc : g ∈ lurkCandidates cds sds now := by
    rw [lurkCandidates]
    apply List.mem_filter.mpr
    refine ⟨?_, by simpa using hg0⟩
    apply List.mem_filterMap.mpr
    exact ⟨some g, by simp [hg], rfl⟩
  have hnonempty : lurkCandidates cds sds now ≠ [] := by
    intro h
    rw [h] at hgc
    exact List.not_mem_nil _ hgc
  obtain ⟨p, hp⟩ := minByDays_ne_nil _ hnonempty
  have hpm : p ∈ lurkCandidates cds sds now := minByDays_mem hp
  have hpm2 := hpm
  rw [lurkCandidates] at hpm2
  obtain ⟨o, ho, hoe⟩ := List.mem_filterMap.mp (List.mem_filter.mp hpm2).1
  simp only [List.mem_cons, List.not_mem_nil, or_false] at ho
  simp only [id_eq] at hoe
  refine ⟨p, by rw [lurkPeriod]; exact hp, ?_, hpm, minByDays_le hp⟩
  rcases ho with rfl | rfl | rfl
  · exact lurkCandidate_frm_le hoe (fun d hd => hle d (List.mem_append_left _ hd))
  · exact lurkCandidate_frm_le hoe (fun d hd => hle d (List.mem_append_right _ hd))
  · exact lurkCandidate_frm_le hoe hle

/-- Witness for C1 (amended) at a one-comment account. -/
theorem lurkPeriod_min_of_maxima_witness :
    ∃ p, lurkPeriod [100] [] 86400 = some p ∧
      p.frm ≤ p.tto ∧
      p ∈ lurkCandidates [100] [] 86400 ∧
      ∀ q ∈ lurkCandidates [100] [] 86400, p.days ≤ q.days :=
  lurkPeriod_min_of_maxima [100] [] 86400 (by decide) (by decide)

/-- C1 counterexample: two comments at instant 0 with `now` exactly one day
later: every timeline's maximum gap (by the sub-day `days` value, ties
keeping the first pair) is the degenerate pair `(0, 0)`, so the reported
lurk period has `from = to`, refuting `from < to`. -/
theorem lurkPeriod_from_lt_to_counterexample :
    lurkPeriod [0, 0] [] 86400 = some ⟨0, 0, 0⟩ ∧
    ¬ (LurkRec.frm ⟨0, 0, 0⟩ < LurkRec.tto ⟨0, 0, 0⟩) := by
  decide

/-- `timestamp.hour` is always a valid hour. -/
theorem postHour_lt (ts : Nat) : postHour ts < 24 := by
  rw [postHour]
  have h : ts % 86400 < 86400 := Nat.mod_lt ts (by norm_num)
  exact Nat.div_lt_of_lt_mul h

theorem commentHeatIdx_bounds {today ts : Nat}
    (hin : inWindow today ts = true) (hd : postDay ts ≤ today) :
    0 ≤ commentHeatIdx today ts ∧ commentHeatIdx today ts ≤ 1463 := by
  have hh := postHour_lt ts
  rw [inWindow, decide_eq_true_eq, deltaDays] at hin
  rw [commentHeatIdx, deltaDays]
  omega

theorem submissionHeatIdx_bounds {today ts : Nat}
    (hin : inWindow today ts = true) (hd : postDay ts ≤ today) :
    0 ≤ submissionHeatIdx today ts ∧ submissionHeatIdx today ts ≤ 1463 := by
  have hh := postHour_lt ts
  rw [inWindow, decide_eq_true_eq, deltaDays] at hin
  rw [submissionHeatIdx, deltaDays]
  omega

theorem deltaDays_bounds {today ts : Nat}
    (hin : inWindow today ts = true) (hd : postDay ts ≤ today) :
    1 ≤ deltaDays today ts ∧ deltaDays today ts ≤ 60 := by
  rw [inWindow, decide_eq_true_eq, deltaDays] at hin
  rw [deltaDays]
  omega

theorem commentHeatIdx_overflow {today ts : Nat} (h : today < postDay ts) :
    inWindow today ts = true ∧ 1464 ≤ commentHeatIdx today ts := by
  have hh := postHour_lt ts
  constructor
  · rw [inWindow, decide_eq_true_eq, deltaDays]
    omega
  · rw [commentHeatIdx, deltaDays]
    omega

theorem heatmapSum_bump (hm : Int → Nat) (i : Int) (h0 : 0 ≤ i)
    (h1 : i ≤ 1463) :
    heatmapSum (bump hm i) = heatmapSum hm + 1 := by
  rw [heatmapSum, heatmapSum]
  simp only [bump]
  rw [Finset.sum_add_distrib]
  have hs : (∑ j in Finset.Icc (0 : Int) 1463, if j = i then 1 else 0) = 1 := by
    rw [Finset.sum_ite_eq' (Finset.Icc (0 : Int) 1463) i (fun _ => 1)]
    rw [if_pos (Finset.mem_Icc.mpr ⟨h0, h1⟩)]
  rw [hs]

theorem heatmapSum_recordComment (today : Nat) (hm : Int → Nat) (ts : Nat)
    (hd : postDay ts ≤ today) :
    heatmapSum (recordCommentHeat today hm ts) =
      heatmapSum hm + (if inWindow today ts then 1 else 0) := by
  rw [recordCommentHeat]
  by_cases h : inWindow today ts = true
  · obtain ⟨h0, h1⟩ := commentHeatIdx_bounds h hd
    simp only [h, if_true]
    exact heatmapSum_bump hm _ h0 h1
  · simp only [Bool.not_eq_true] at h
    simp [h]

theorem heatmapSum_recordSubmission (today : Nat) (hm : Int → Nat) (ts : Nat)
    (hd : postDay ts ≤ today) :
    heatmapSum (recordSubmissionHeat today hm ts) =
      heatmapSum hm + (if inWindow today ts then 1 else 0) := by
  rw [recordSubmissionHeat]
  by_cases h : inWindow today ts = true
  · obtain ⟨h0, h1⟩ := submissionHeatIdx_bounds h hd
    simp only [h, if_true]
    exact heatmapSum_bump hm _ h0 h1
  · simp only [Bool.not_eq_true] at h
    simp [h]

theorem heatmapSum_foldl_comment (today : Nat) (tss : List Nat) :
    ∀ hm : Int → Nat, (∀ ts ∈ tss, postDay ts ≤ today) →
    heatmapSum (tss.foldl (recordCommentHeat today) hm) =
      heatmapSum hm + (tss.filter (inWindow today)).length := by
  induction tss with
  | nil => intro hm _; simp
  | cons t ts ih =>
    intro hm hd
    rw [List.foldl_cons, ih _ (fun x hx => hd x (List.mem_cons_of_mem _ hx)),
      heatmapSum_recordComment today hm t (hd t (List.mem_cons_self _ _))]
    by_cases h : inWindow today t = true
    · rw [List.filter_cons_of_pos h, if_pos h, List.length_cons]
      omega
    · rw [List.filter_cons_of_neg (by simpa using h), if_neg h]
      omega

theorem heatmapSum_foldl_submission (today : Nat) (tss : List Nat) :
    ∀ hm : Int → Nat, (∀ ts ∈ tss, postDay ts ≤ today) →
    heatmapSum (tss.foldl (recordSubmissionHeat today) hm) =
      heatmapSum hm + (tss.filter (inWindow today)).length := by
  induction tss with
  | nil => intro hm _; simp
  | cons t ts ih =>
    intro hm hd
    rw [List.foldl_cons, ih _ (fun x hx => hd x (List.mem_cons_of_mem _ hx)),
      heatmapSum_recordSubmission today hm t (hd t (List.mem_cons_self _ _))]
    by_cases h : inWindow today t = true
    · rw [List.filter_cons_of_pos h, if_pos h, List.length_cons]
      omega
    · rw [List.filter_cons_of_neg (by simpa using h), if_neg h]
      omega

theorem length_filter_map_created (today : Nat) (l : List Post) :
    ((l.map Post.created_utc).filter (inWindow today)).length =
      (l.filter (fun p => inWindow today p.created_utc)).length := by
  rw [List.filter_map, List.length_map]
  rfl

/-- C9: for a post inside the recency window and dated at most today, the
comment heatmap index, the submission heatmap index and the
recent_karma/recent_posts index (`deltaDays`) are all in bounds
([0, 1463], [0, 1463] and [1, 60] for arrays of length 1464 and 61); and a
post dated strictly after today passes the window test yet drives the
comment heatmap index to 1464 or beyond, out of bounds. -/
theorem heatIdx_in_bounds (today ts : Nat) :
    (inWindow today ts = true → postDay ts ≤ today →
      (0 ≤ commentHeatIdx today ts ∧ commentHeatIdx today ts ≤ 1463) ∧
      (0 ≤ submissionHeatIdx today ts ∧ submissionHeatIdx today ts ≤ 1463) ∧
      (1 ≤ deltaDays today ts ∧ deltaDays today ts ≤ 60)) ∧
    (today < postDay ts →
      inWindow today ts = true ∧ 1464 ≤ commentHeatIdx today ts) := by
  constructor
  · intro hin hd
    exact ⟨commentHeatIdx_bounds hin hd, submissionHeatIdx_bounds hin hd,
      deltaDays_bounds hin hd⟩
  · exact commentHeatIdx_overflow

/-- Witness for C9: a comment 10 days before day 19000 is fully in
bounds; a comment dated one day after `today` overflows the heatmap. -/
theorem heatIdx_in_bounds_witness :
    ((0 ≤ commentHeatIdx 19000 (18990 * 86400 + 7200) ∧
      commentHeatIdx 19000 (18990 * 86400 + 7200) ≤ 1463) ∧
     (0 ≤ submissionHeatIdx 19000 (18990 * 86400 + 7200) ∧
      submissionHeatIdx 19000 (18990 * 86400 + 7200) ≤ 1463) ∧
     (1 ≤ deltaDays 19000 (18990 * 86400 + 7200) ∧
      deltaDays 19000 (18990 * 86400 + 7200) ≤ 60)) ∧
    (inWindow 19000 (19001 * 86400) = true ∧
     1464 ≤ commentHeatIdx 19000 (19001 * 86400)) :=
  ⟨(heatIdx_in_bounds 19000 (18990 * 86400 + 7200)).1 (by decide) (by decide),
   (heatIdx_in_bounds 19000 (19001 * 86400)).2 (by decide)⟩

/-- C7: when every post is dated at most today, the sum over all 1464
heatmap cells equals the number of posts (comments plus submissions) whose
timestamp date falls strictly within the trailing 60-day window, with
comments indexed at `delta*24 + hour` and submissions at
`(delta-1)*24 + hour`. -/
theorem heatmap_sum_eq_window_count (today : Nat)
    (comments submissions : List Post)
    (hc : ∀ p ∈ comments, postDay p.created_utc ≤ today)
    (hs : ∀ p ∈ submissions, postDay p.created_utc ≤ today) :
    heatmapSum (heatmapOf today comments submissions) =
      inWindowCount today comments + inWindowCount today submissions := by
  rw [heatmapOf,
    heatmapSum_foldl_submission today _ _ (by
      intro ts hts
      obtain ⟨p, hp, rfl⟩ := List.mem_map.mp hts
      exact hs p hp),
    heatmapSum_foldl_comment today _ _ (by
      intro ts hts
      obtain ⟨p, hp, rfl⟩ := List.mem_map.mp hts
      exact hc p hp)]
  have hzero : heatmapSum (fun _ => 0) = 0 := by simp [heatmapSum]
  rw [hzero, inWindowCount, inWindowCount,
    length_filter_map_created, length_filter_map_created]
  omega

/-- Witness for C7 at a one-comment account with the comment 10 days old. -/
theorem heatmap_sum_eq_window_count_witness :
    heatmapSum (heatmapOf 19000 [⟨"a", 18990 * 86400 + 7200, 1, 0⟩] []) =
      inWindowCount 19000 [⟨"a", 18990 * 86400 + 7200, 1, 0⟩] +
      inWindowCount 19000 [] :=
  heatmap_sum_eq_window_count 19000 [⟨"a", 18990 * 86400 + 7200, 1, 0⟩] []
    (by decide) (by decide)

/-- A month key absent from every bucket leaves the comment date loop
without effect. -/
theorem recordCommentDate_not_mem (buckets : List DateBucket)
    (ym : Int × Nat) (s : Int) (h : ym ∉ buckets.map DateBucket.date) :
    recordCommentDate buckets ym s = buckets := by
  induction buckets with
  | nil => rfl
  | cons b bs ih =>
    rw [recordCommentDate]
    have hne : ¬ b.date = ym := by
      intro he
      exact h (by rw [List.map_cons]; exact he ▸ List.mem_cons_self _ _)
    rw [if_neg hne, ih (fun hm => h (by rw [List.map_cons]; exact List.mem_cons_of_mem _ hm))]

theorem recordSubmissionDate_not_mem (buckets : List DateBucket)
    (ym : Int × Nat) (s : Int) (h : ym ∉ buckets.map DateBucket.date) :
    recordSubmissionDate buckets ym s = buckets := by
  induction buckets with
  | nil => rfl
  | cons b bs ih =>
    rw [recordSubmissionDate]
    have hne : ¬ b.date = ym := by
      intro he
      exact h (by rw [List.map_cons]; exact he ▸ List.mem_cons_self _ _)
    rw [if_neg hne, ih (fun hm => h (by rw [List.map_cons]; exact List.mem_cons_of_mem _ hm))]

/-- C2 (amended): a post whose (year, month) has no pre-allocated bucket is
recorded silently without effect — the date loop leaves every bucket
unchanged and raises no error — and the pre-allocated buckets are exactly
the months of the days from signup+1 through today, which can omit the
signup month itself (the range starts one day after signup). -/
theorem dateBuckets_miss_and_coverage :
    (∀ (buckets : List DateBucket) (ym : Int × Nat) (s : Int),
      ym ∉ buckets.map DateBucket.date →
      recordCommentDate buckets ym s = buckets ∧
      recordSubmissionDate buckets ym s = buckets) ∧
    (∀ (today start : Int) (ym : Int × Nat),
      ym ∈ bucketMonths today start ↔
        ∃ d : Int, start < d ∧ d ≤ today ∧ civilYM d = ym) := by
  constructor
  · intro buckets ym s h
    exact ⟨recordCommentDate_not_mem buckets ym s h,
      recordSubmissionDate_not_mem buckets ym s h⟩
  · intro today start ym
    rw [bucketMonths, (List.perm_insertionSort ymLe _).mem_iff, List.mem_dedup]
    constructor
    · intro h
      obtain ⟨x, hx, he⟩ := List.mem_map.mp h
      rw [List.mem_range] at hx
      exact ⟨today - (x : Int), by omega, by omega, he⟩
    · rintro ⟨d, h1, h2, he⟩
      apply List.mem_map.mpr
      refine ⟨(today - d).toNat, ?_, ?_⟩
      · rw [List.mem_range]
        omega
      · have hd : today - ((today - d).toNat : Int) = d := by omega
        rw [hd, he]

/-- Witness for C2 (amended): a miss on month (2020, 1) leaves a concrete
one-bucket list unchanged, and (2020, 2) is a bucket month for
signup = 2020-01-31 (day 18292), today = 2020-02-05 (day 18297). -/
theorem dateBuckets_miss_and_coverage_witness :
    recordCommentDate [⟨(2020, 2), 0, 0, 0, 0⟩] (2020, 1) 5 =
      [⟨(2020, 2), 0, 0, 0, 0⟩] ∧
    (2020, 2) ∈ bucketMonths 18297 18292 :=
  ⟨(dateBuckets_miss_and_coverage.1 [⟨(2020, 2), 0, 0, 0, 0⟩] (2020, 1) 5
      (by decide)).1,
   (dateBuckets_miss_and_coverage.2 18297 18292 (2020, 2)).mpr
     ⟨18297, by decide, by decide, by decide⟩⟩

/-- C2 counterexample: signup 2020-01-31 (epoch day 18292), today
2020-02-05 (day 18297).  The signup day's month is (2020, 1), yet the
pre-allocated buckets cover only (2020, 2) — the signup-to-today span is
not fully covered — and recording a comment dated in (2020, 1) leaves the
buckets unchanged: no loud failure, the post is silently skipped. -/
theorem dateBuckets_counterexample :
    civilYM 18292 = (2020, 1) ∧
    (2020, 1) ∉ bucketMonths 18297 18292 ∧
    recordCommentDate (initBuckets 18297 18292) (2020, 1) 5 =
      initBuckets 18297 18292 := by
  decide

/-- C4 (amended): the synopsis-topic qualification
`(name in default_subs and count >= 10) or count >= 3` is logically
equivalent to `count >= 3` alone (the first disjunct implies the second),
and the derived-attribute loop checks only `count >= 3` and never consults
the default set; so the higher default-subreddit bar is never actually
enforced, and a default subreddit with 3 ≤ count < 10 does contribute its
derived attribute and its synopsis topics. -/
theorem thresholds_default_ineffective :
    (∀ (defaultSubs : List String) (name : String) (count : Nat),
      synopsisTopicQualifies defaultSubs name count =
        decide (MIN_THRESHOLD ≤ count)) ∧
    (∀ (dict : String → Option SubMeta) (da : String → List String)
        (name : String) (count : Nat) (m : SubMeta),
      dict name = some m → m.attr ≠ "" → MIN_THRESHOLD ≤ count →
      deriveStep dict da (name, count) m.attr =
        da m.attr ++ [lowerStr m.value]) := by
  constructor
  · intro ds name c
    rw [synopsisTopicQualifies, decide_eq_decide]
    constructor
    · rintro (⟨_, h⟩ | h)
      · exact le_trans (by norm_num [MIN_THRESHOLD, MIN_THRESHOLD_FOR_DEFAULT]) h
      · exact h
    · exact Or.inr
  · intro dict da name c m hd ha hc
    rw [deriveStep]
    simp only [hd]
    rw [if_pos ⟨ha, hc⟩]
    simp

/-- Witness for C4 (amended) at a default subreddit with count 4. -/
theorem thresholds_default_ineffective_witness :
    synopsisTopicQualifies ["askreddit"] "askreddit" 4 =
      decide (MIN_THRESHOLD ≤ 4) ∧
    deriveStep
        (fun n => if n = "askreddit"
          then some ⟨"Other", "", "", "gender", "female"⟩ else none)
        (fun _ => []) ("askreddit", 4) "gender" =
      (fun _ => ([] : List String)) "gender" ++ [lowerStr "female"] :=
  ⟨thresholds_default_ineffective.1 ["askreddit"] "askreddit" 4,
   thresholds_default_ineffective.2
     (fun n => if n = "askreddit"
       then some ⟨"Other", "", "", "gender", "female"⟩ else none)
     (fun _ => []) "askreddit" 4 ⟨"Other", "", "", "gender", "female"⟩
     (by decide) (by decide) (by decide)⟩

/-- C4 counterexample: "askreddit" is in the default set and mapped to
attribute gender = "female"; with 4 comments there (3 ≤ 4 < 10) the
derived gender list receives "female" and the synopsis topics include its
topic path 4 times — contradicting the claim that a default subreddit
below 10 contributes no derived attribute and no synopsis topic. -/
theorem thresholds_default_counterexample :
    derivedAttributesOf
        (fun n => if n = "askreddit"
          then some ⟨"Other", "", "", "gender", "female"⟩ else none)
        (List.replicate 4 ⟨"askreddit", 0, 1, 0⟩) [] [] "gender"
      = ["female"] ∧
    synopsisTopics
        (fun n => if n = "askreddit"
          then some ⟨"Other", "", "", "gender", "female"⟩ else none)
        ["askreddit"]
        (allSubredditCounts (List.replicate 4 ⟨"askreddit", 0, 1, 0⟩) [])
      = List.replicate 4 "Other>Generic>Generic" := by
  decide

/-- Lookup after a keyed value update. -/
theorem lookup_mapAtKey (f : SynCat → SynCat) (k k' : String)
    (syn : List (String × SynCat)) :
    (mapAtKey f k syn).lookup k' =
      if k' = k then (syn.lookup k').map f else syn.lookup k' := by
  induction syn with
  | nil =>
    rw [mapAtKey]
    simp only [List.map_nil, List.lookup_nil, Option.map_none]
    split <;> rfl
  | cons kv syn ih =>
    obtain ⟨k1, c1⟩ := kv
    rw [mapAtKey, List.map_cons]
    rw [mapAtKey] at ih
    by_cases h1 : k1 = k <;> by_cases h2 : k' = k1
    · have hb : (k' == k1) = true := beq_iff_eq.mpr h2
      simp [h1, h2, List.lookup_cons, hb, ih]
    · have hb : (k' == k1) = false := beq_eq_false_iff_ne.mpr h2
      have h3 : ¬ k' = k := fun he => h2 (he.trans h1.symm)
      have hb2 : (k' == k) = false := beq_eq_false_iff_ne.mpr h3
      simp [h1, h3, List.lookup_cons, hb, hb2, ih]
    · have hb : (k' == k1) = true := beq_iff_eq.mpr h2
      have h3 : ¬ k' = k := fun he => h1 (h2.symm.trans he)
      simp [h1, h3, List.lookup_cons, hb, ih]
    · have hb : (k' == k1) = false := beq_eq_false_iff_ne.mpr h2
      simp [h1, List.lookup_cons, hb, ih]

/-- Lookup after appending one new pair at the end. -/
theorem lookup_append_single (syn : List (String × SynCat)) (k k' : String)
    (c : SynCat) :
    (syn ++ [(k, c)]).lookup k' =
      (syn.lookup k').or (if k' = k then some c else none) := by
  induction syn with
  | nil =>
    simp only [List.nil_append, List.lookup_nil, Option.none_or]
    by_cases h : k' = k
    · have hb : (k' == k) = true := beq_iff_eq.mpr h
      simp [h, List.lookup_cons, hb]
    · have hb : (k' == k) = false := beq_eq_false_iff_ne.mpr h
      simp [h, List.lookup_cons, hb]
  | cons kv syn ih =>
    obtain ⟨k1, c1⟩ := kv
    rw [List.cons_append]
    by_cases h2 : k' = k1
    · have hb : (k' == k1) = true := beq_iff_eq.mpr h2
      simp [List.lookup_cons, hb]
    · have hb : (k' == k1) = false := beq_eq_false_iff_ne.mpr h2
      simp [List.lookup_cons, hb, ih]

/-- A key `any`-absent from the synopsis has no lookup entry. -/
theorem lookup_eq_none_of_hasKey_false (syn : List (String × SynCat))
    (k : String) (h : synHasKey syn k = false) : syn.lookup k = none := by
  induction syn with
  | nil => rfl
  | cons kv syn ih =>
    obtain ⟨k1, c1⟩ := kv
    rw [synHasKey, List.any_cons] at h
    rw [Bool.or_eq_false_iff] at h
    have h1 : ¬ k1 = k := by simpa using h.1
    have hb : (k == k1) = false := beq_eq_false_iff_ne.mpr (fun he => h1 he.symm)
    simp only [List.lookup_cons, hb]
    exact ih (by rw [synHasKey]; exact h.2)

/-- `appendData` at a different key leaves a category's data unchanged. -/
theorem synData_appendData_ne (syn : List (String × SynCat)) (k k' : String)
    (e : SynEntry) (h : k' ≠ k) :
    synData (appendData syn k e) k' = synData syn k' := by
  rw [synData, synData, appendData, lookup_mapAtKey, if_neg h]

/-- `updateDerived` never changes any category's data. -/
theorem synData_updateDerived (syn : List (String × SynCat)) (k k' : String)
    (dd : List SynEntry) :
    synData (updateDerived syn k dd) k' = synData syn k' := by
  rw [synData, synData, updateDerived, lookup_mapAtKey]
  by_cases h : k' = k
  · rw [if_pos h]
    cases syn.lookup k' <;> rfl
  · rw [if_neg h]

/-- Data of a category after appending a new pair at the end. -/
theorem synData_append_single (syn : List (String × SynCat)) (k k' : String)
    (c : SynCat) :
    synData (syn ++ [(k, c)]) k' =
      match syn.lookup k' with
      | some c0 => c0.data
      | none => if k' = k then c.data else [] := by
  rw [synData, lookup_append_single]
  cases syn.lookup k' with
  | some c0 => rfl
  | none =>
    simp only [Option.none_or]
    by_cases h : k' = k
    · rw [if_pos h, if_pos h]
      rfl
    · rw [if_neg h, if_neg h]
      rfl

/-- A single topic-merge iteration preserves "at most one gender data
entry": appends at the gender key are blocked by the guard, and a newly
created key carries exactly one entry. -/
theorem topicMergeStep_gender (coalesce : List String → String)
    (syn : List (String × SynCat)) (tc : String × Nat)
    (h : (synData syn "gender").length ≤ 1) :
    (synData (topicMergeStep coalesce syn tc) "gender").length ≤ 1 := by
  rw [topicMergeStep]
  split
  · exact h
  split
  · exact h
  next k _ =>
    split
    · exact h
    split
    · exact h
    split
    · split
      next hguard =>
        rw [synData_appendData_ne syn k "gender" _ (fun he => hguard.1 he.symm)]
        exact h
      · exact h
    · next hnk =>
      rw [synData_append_single]
      cases hl : syn.lookup "gender" with
      | some c0 =>
        rw [synData, hl] at h
        exact h
      | none =>
        by_cases hg : "gender" = k
        · rw [if_pos hg]
          exact le_refl _
        · rw [if_neg hg]
          exact Nat.zero_le _

/-- The whole topic merge preserves "at most one gender data entry". -/
theorem topicMerge_gender (coalesce : List String → String)
    (topics : List String) :
    ∀ syn, (synData syn "gender").length ≤ 1 →
      (synData (topicMerge coalesce syn topics) "gender").length ≤ 1 := by
  simp only [topicMerge]
  generalize mostCommon topics = tcs
  induction tcs with
  | nil => intro syn h; exact h
  | cons tc tcs ih =>
    intro syn h
    rw [List.foldl_cons]
    exact ih _ (topicMergeStep_gender coalesce syn tc h)

/-- A derived-merge iteration touches only `data_derived` of existing keys
and creates new keys with empty `data`. -/
theorem derivedMergeStep_gender (syn : List (String × SynCat)) (k : String)
    (vals : List String) (h : (synData syn "gender").length ≤ 1) :
    (synData (derivedMergeStep syn k vals) "gender").length ≤ 1 := by
  rw [derivedMergeStep]
  split
  · rw [synData_updateDerived]
    exact h
  · rw [synData_append_single]
    cases hl : syn.lookup "gender" with
    | some c0 =>
      rw [synData, hl] at h
      exact h
    | none =>
      by_cases hg : "gender" = k
      · rw [if_pos hg]
        exact Nat.zero_le _
      · rw [if_neg hg]
        exact Nat.zero_le _

/-- The whole derived merge preserves "at most one gender data entry". -/
theorem derivedMerge_gender (da : String → List String) :
    ∀ syn, (synData syn "gender").length ≤ 1 →
      (synData (derivedMerge syn da) "gender").length ≤ 1 := by
  simp only [derivedMerge]
  generalize derivedAttributeKeys = ks
  induction ks with
  | nil => intro syn h; exact h
  | cons k ks ih =>
    intro syn h
    rw [List.foldl_cons]
    apply ih
    split
    · exact h
    · exact derivedMergeStep_gender syn k (da k) h

/-- The single most common value aggregation yields at most one entry. -/
theorem topValueEntry_len (obs : List (String × String)) :
    (topValueEntry obs).length ≤ 1 := by
  rw [topValueEntry]
  split <;> simp

/-- Every data list in a synopsis whose entries all have at most one data
entry is itself at most one long. -/
theorem synData_le_of_all (syn : List (String × SynCat))
    (h : ∀ kc ∈ syn, kc.2.data.length ≤ 1) (k : String) :
    (synData syn k).length ≤ 1 := by
  induction syn with
  | nil => simp [synData]
  | cons kv syn ih =>
    obtain ⟨k1, c1⟩ := kv
    rw [synData]
    simp only [List.lookup_cons]
    by_cases h2 : (k == k1) = true
    · simp only [h2]
      simpa using h (k1, c1) (List.mem_cons_self _ _)
    · simp only [Bool.not_eq_true] at h2
      simp only [h2]
      have := ih (fun kc hm => h kc (List.mem_cons_of_mem _ hm))
      rw [synData] at this
      exact this

/-- Each direct-data category of `synopsisInit` holds at most one entry. -/
theorem synopsisInit_data_le (genders orientations partners :
    List (String × String)) (k : String) :
    (synData (synopsisInit genders orientations partners) k).length ≤ 1 := by
  apply synData_le_of_all
  intro kc hm
  rw [synopsisInit] at hm
  simp only [List.mem_append] at hm
  rcases hm with (hm | hm) | hm <;>
  · split at hm
    · simp at hm
    · rw [List.mem_singleton] at hm
      rw [hm]
      exact topValueEntry_len _

/-- C8 (amended): the single-valued categories gender, orientation and
relationship_partner each hold at most one `data` entry after the direct
most-common step, and gender still holds at most one after the full
topic-derived merge pipeline (the merge guard skips the "gender" key);
orientation and relationship_partner are not in that guard, so the topic
merge can append additional `data` entries to them when a topic key
collides with the category name. -/
theorem synopsis_single_valued (coalesce : List String → String)
    (genders orientations partners : List (String × String))
    (topics : List String) (da : String → List String) :
    (synData (synopsisInit genders orientations partners) "gender").length ≤ 1 ∧
    (synData (synopsisInit genders orientations partners) "orientation").length ≤ 1 ∧
    (synData (synopsisInit genders orientations partners)
      "relationship_partner").length ≤ 1 ∧
    (synData (synopsisPipeline coalesce genders orientations partners topics da)
      "gender").length ≤ 1 := by
  refine ⟨synopsisInit_data_le _ _ _ _, synopsisInit_data_le _ _ _ _,
    synopsisInit_data_le _ _ _ _, ?_⟩
  rw [synopsisPipeline]
  exact derivedMerge_gender da _
    (topicMerge_gender coalesce topics _ (synopsisInit_data_le _ _ _ _))

/-- C8 counterexample: a subreddit table entry with `topic_level1 =
"orientation"` and 3 posts there: the topic-merge step computes the key
"orientation" (not protected by the guard, unlike "gender") and appends a
second entry into the orientation category's `data`, next to the direct
most-common entry — so the claimed at-most-one invariant fails after the
merge for orientation. -/
theorem synopsis_orientation_two_entries :
    (synData
      (synopsisPipeline (fun ts => String.join ts)
        [] [("straight", "s1")] []
        (synopsisTopics
          (fun n => if n = "astro"
            then some ⟨"orientation", "stuff", "", "", ""⟩ else none)
          [] (allSubredditCounts (List.replicate 3 ⟨"astro", 0, 1, 0⟩) []))
        (fun _ => [])) "orientation").length = 2 := by
  decide

end Maicroft
